import Mathlib

/-!
# Verification of the xpt.rs SAS XPORT (XPT v5/v6) decoder

Shallow embedding of the decoder crate.  The crate root (`src/lib.rs`)
declares exactly two modules, `ibm370` and `xpt_parser`; the additional
files `src/xpt.rs` and `src/xpt2.rs` are earlier drafts that are not part
of the compiled crate, so the embedded program consists of:

* `src/ibm370.rs`     — `ibm64_to_f64`, the IBM System/370 float decoder
                        exported from the crate root;
* `src/xpt_parser.rs` — `XPTParser::parse` and its helpers, the decoder
                        used by the public entry point;
* `src/lib.rs`        — `read_xpt_v5_from_bytes`, the public entry point.

Modelling conventions:

* A Rust byte slice `&[u8]` is a `List Nat` whose elements are byte
  values (< 256); multi-byte big-endian integers are assembled exactly as
  the source does.
* Rust `f64` arithmetic is modelled in `ℚ` (exact arithmetic).  IEEE-754
  rounding is not modelled; every numeric fact proved below is insensitive
  to rounding at the inputs involved (the discrepancies exhibited are a
  factor of 16 and "value vs. missing", far beyond rounding error).
* Rust `String` is a Lean `String`; `String::from_utf8_lossy` is modelled
  by a UTF-8 decoder that is exact on ASCII and on well-formed multi-byte
  sequences and emits one U+FFFD per offending lead byte otherwise (the
  Rust maximal-subpart rule differs only in how many U+FFFD an ill-formed
  sequence produces, which no theorem below touches).
-/

namespace XptRs

/-! ## Constants (src/xpt_parser.rs, `mod constants`) -/

/-- Standard XPT record size in bytes. -/
def RECORD_SIZE : Nat := 80

/-- Length of a name string record in bytes. -/
def NAME_STRING_RECORD_LENGTH : Nat := 140

/-- Minimum length for numeric variables (IBM 360 floating point). -/
def MIN_NUMERIC_LENGTH : Nat := 8

/-- Minimum length for character variables. -/
def MIN_CHARACTER_LENGTH : Nat := 1

/-! ## Byte-level helpers -/

/-- `u16::from_be_bytes([b0, b1])` on byte values. -/
def be16 (b0 b1 : Nat) : Nat := b0 * 256 + b1

/-- The slice `data[start..stop]` of a byte buffer (in-range in every use
by the source; Lean's `drop`/`take` give the same result there). -/
def sliceList (data : List Nat) (start stop : Nat) : List Nat :=
  (data.drop start).take (stop - start)

/-- `find_bytes` (src/xpt_parser.rs):
`data.windows(pattern.len()).position(|w| w == pattern)`. -/
def findBytesGo (pattern : List Nat) : List Nat → Nat → Option Nat
  | [], i => if pattern.length = 0 then some i else Option.none
  | b :: rest, i =>
    if (b :: rest).length < pattern.length then Option.none
    else if (b :: rest).take pattern.length = pattern then some i
    else findBytesGo pattern rest (i + 1)

def findBytes (data pattern : List Nat) : Option Nat :=
  findBytesGo pattern data 0

/-- `align_to_record_boundary` (src/xpt_parser.rs). -/
def alignToRecordBoundary (index : Nat) : Nat :=
  if index % RECORD_SIZE = 0 then index else index + (RECORD_SIZE - index % RECORD_SIZE)

/-! ## Modelled Rust standard library: UTF-8 decoding and trimming -/

/-- U+FFFD, the replacement character used by `String::from_utf8_lossy`. -/
def replacementChar : Char := Char.ofNat 0xFFFD

/-- Continuation byte test `0x80..=0xBF`. -/
def utf8Cont (b : Nat) : Bool := 0x80 ≤ b && b ≤ 0xBF

/-- Allowed range of the first continuation byte of a 3-byte sequence
(surrogates and overlong encodings excluded, as in Rust/std). -/
def utf8Cont3 (lead b : Nat) : Bool :=
  if lead = 0xE0 then 0xA0 ≤ b && b ≤ 0xBF
  else if lead = 0xED then 0x80 ≤ b && b ≤ 0x9F
  else utf8Cont b

/-- Allowed range of the first continuation byte of a 4-byte sequence. -/
def utf8Cont4 (lead b : Nat) : Bool :=
  if lead = 0xF0 then 0x90 ≤ b && b ≤ 0xBF
  else if lead = 0xF4 then 0x80 ≤ b && b ≤ 0x8F
  else utf8Cont b

/-- Model of `String::from_utf8_lossy`: exact on ASCII and well-formed
multi-byte sequences; an ill-formed sequence yields one U+FFFD per
offending lead byte (see the header comment). -/
def utf8Lossy : List Nat → List Char
  | [] => []
  | b :: rest =>
    if b < 0x80 then Char.ofNat b :: utf8Lossy rest
    else if 0xC2 ≤ b && b ≤ 0xDF then
      match rest with
      | c1 :: r =>
        if utf8Cont c1 then Char.ofNat ((b - 0xC0) * 64 + (c1 - 0x80)) :: utf8Lossy r
        else replacementChar :: utf8Lossy (c1 :: r)
      | [] => [replacementChar]
    else if 0xE0 ≤ b && b ≤ 0xEF then
      match rest with
      | c1 :: c2 :: r =>
        if utf8Cont3 b c1 && utf8Cont c2 then
          Char.ofNat ((b - 0xE0) * 4096 + (c1 - 0x80) * 64 + (c2 - 0x80)) :: utf8Lossy r
        else replacementChar :: utf8Lossy (c1 :: c2 :: r)
      | other => replacementChar :: utf8Lossy other
    else if 0xF0 ≤ b && b ≤ 0xF4 then
      match rest with
      | c1 :: c2 :: c3 :: r =>
        if utf8Cont4 b c1 && utf8Cont c2 && utf8Cont c3 then
          Char.ofNat ((b - 0xF0) * 262144 + (c1 - 0x80) * 4096 + (c2 - 0x80) * 64 + (c3 - 0x80))
            :: utf8Lossy r
        else replacementChar :: utf8Lossy (c1 :: c2 :: c3 :: r)
      | other => replacementChar :: utf8Lossy other
    else replacementChar :: utf8Lossy rest

/-- Model of `String::from_utf8` (strict): `some` exactly on well-formed
input, decoding as `utf8Lossy` does. -/
def utf8Strict : List Nat → Option (List Char)
  | [] => some []
  | b :: rest =>
    if b < 0x80 then (utf8Strict rest).map (Char.ofNat b :: ·)
    else if 0xC2 ≤ b && b ≤ 0xDF then
      match rest with
      | c1 :: r =>
        if utf8Cont c1 then (utf8Strict r).map (Char.ofNat ((b - 0xC0) * 64 + (c1 - 0x80)) :: ·)
        else Option.none
      | [] => Option.none
    else if 0xE0 ≤ b && b ≤ 0xEF then
      match rest with
      | c1 :: c2 :: r =>
        if utf8Cont3 b c1 && utf8Cont c2 then
          (utf8Strict r).map (Char.ofNat ((b - 0xE0) * 4096 + (c1 - 0x80) * 64 + (c2 - 0x80)) :: ·)
        else Option.none
      | _ => Option.none
    else if 0xF0 ≤ b && b ≤ 0xF4 then
      match rest with
      | c1 :: c2 :: c3 :: r =>
        if utf8Cont4 b c1 && utf8Cont c2 && utf8Cont c3 then
          (utf8Strict r).map
            (Char.ofNat ((b - 0xF0) * 262144 + (c1 - 0x80) * 4096 + (c2 - 0x80) * 64 + (c3 - 0x80)) :: ·)
        else Option.none
      | _ => Option.none
    else Option.none

/-- Rust `char::is_whitespace` (the Unicode White_Space code points). -/
def isRustWhitespace (c : Char) : Bool :=
  [0x09, 0x0A, 0x0B, 0x0C, 0x0D, 0x20, 0x85, 0xA0, 0x1680,
   0x2000, 0x2001, 0x2002, 0x2003, 0x2004, 0x2005, 0x2006, 0x2007,
   0x2008, 0x2009, 0x200A, 0x2028, 0x2029, 0x202F, 0x205F, 0x3000].contains c.toNat

/-- `trim_end_matches(|c: char| c.is_whitespace() || c == '\0')`. -/
def trimEndWsNul (cs : List Char) : List Char :=
  (cs.reverse.dropWhile (fun c => isRustWhitespace c || c == Char.ofNat 0)).reverse

/-- Rust `str::trim` (whitespace from both ends). -/
def rustTrim (cs : List Char) : List Char :=
  ((cs.dropWhile isRustWhitespace).reverse.dropWhile isRustWhitespace).reverse

/-- `trim_end_matches(c)` for a single character. -/
def trimEndChar (c : Char) (s : String) : String :=
  String.mk ((s.toList.reverse.dropWhile (· == c)).reverse)

/-- `ascii_string` (src/xpt_parser.rs): bounds-checked slice, lossy UTF-8
decode, trim trailing whitespace and NULs. -/
def asciiString (data : List Nat) (offset length : Nat) : String :=
  if offset ≥ data.length ∨ offset + length > data.length then ""
  else String.mk (trimEndWsNul (utf8Lossy (sliceList data offset (offset + length))))

/-- `ascii_string_trimmed` (src/xpt_parser.rs). -/
def asciiStringTrimmed (data : List Nat) : String :=
  String.mk (trimEndWsNul (utf8Lossy data))

/-! ## src/ibm370.rs — `ibm64_to_f64` -/

/-- `pub enum IbmMissing { Dot, Letter(u8), None }`. -/
inductive IbmMissing where
  | dot : IbmMissing
  | letter : Nat → IbmMissing
  | none : IbmMissing
deriving DecidableEq, Repr

/-- `16f64.powi(p)` in exact arithmetic. -/
def powiQ (b : ℚ) (p : ℤ) : ℚ :=
  if 0 ≤ p then b ^ p.toNat else (b ^ (-p).toNat)⁻¹

/-- The 14-iteration nibble loop of `ibm64_to_f64`:
`nib = (tmp >> 52) & 0xF; f += nib / denom; denom *= 16; tmp <<= 4;`
with `tmp : u64` (the left shift wraps modulo 2^64). -/
def ibmLoop : Nat → ℚ → ℚ → Nat → ℚ
  | 0, f, _, _ => f
  | Nat.succ k, f, denom, tmp =>
    let nib : Nat := (tmp >>> 52) &&& 0xF
    ibmLoop k (f + (nib : ℚ) / denom) (denom * 16) ((tmp <<< 4) % (2 ^ 64))

/-- `ibm64_to_f64` (src/ibm370.rs), with `f64` arithmetic carried out in
`ℚ` (see the header comment). -/
def ibm64_to_f64 (bytes : List Nat) : Option ℚ × IbmMissing :=
  if bytes.length < 8 then (Option.none, IbmMissing.none)
  else
    match bytes with
    | [] => (Option.none, IbmMissing.none)  -- unreachable: length ≥ 8
    | b0 :: tail =>
      if tail.all (· == 0x00) then
        if b0 = 0x2E ∨ b0 = 0x5F then (Option.none, IbmMissing.dot)
        else if 0x41 ≤ b0 ∧ b0 ≤ 0x5A then (Option.none, IbmMissing.letter b0)
        else (Option.none, IbmMissing.none)
      else
        let sign : Bool := (b0 &&& 0x80) ≠ 0
        let exp : Nat := b0 &&& 0x7F
        -- source: `if exp == 0 && bytes[1..].iter().all(|&v| v == 0)` — unreachable
        -- here (the branch above already returned for an all-zero tail), kept verbatim
        if exp = 0 ∧ tail.all (· == 0) then (some 0, IbmMissing.none)
        else
          let p : ℤ := (exp : ℤ) - 64
          let fracU : Nat := (tail.take 7).foldl (fun acc bb => acc * 256 + bb) 0
          let f : ℚ := ibmLoop 14 0 1 fracU
          let val : ℚ := f * powiQ 16 p
          (some (if sign then -val else val), IbmMissing.none)

/-! ## src/xpt_parser.rs — data model -/

/-- `enum VariableType`. -/
inductive VariableType where
  | Numeric : VariableType
  | Character : VariableType
deriving DecidableEq, Repr

/-- `struct XPTVariable`. -/
structure XPTVariable where
  name : String
  label : String
  var_type : VariableType
  length : Nat
  position : Nat
deriving DecidableEq, Repr

/-- `struct XPTRow`. -/
structure XPTRow where
  values : List String
deriving DecidableEq, Repr

/-- `struct XPTDataset`. -/
structure XPTDataset where
  (title : String)
  («variables» : List XPTVariable)
  (rows : List XPTRow)
deriving DecidableEq, Repr

/-- `struct NameStringRecord` (internal to the parser). -/
structure NameStringRecord where
  var_type : Nat
  length : Nat
  name : String
  label : String
  position : Nat
deriving DecidableEq, Repr

/-! ## src/xpt_parser.rs — numeric cell decoding

`parse_numeric_value` computes an IBM/370 value (as `f64`, modelled in
`ℚ`) and renders it with `format!("{:.6}", value)` followed by trimming of
trailing `'0'` and `'.'`.  The rendering is modelled below; rounding of
the fixed-point display uses round-half-to-even, as Rust's float
formatting does on the exact binary value. -/

/-- Fixed-point rounding to an integer, ties to even (`t ≥ 0`). -/
def roundHalfEven (t : ℚ) : Nat :=
  let n : Nat := (⌊t⌋).toNat
  let r : ℚ := t - (n : ℚ)
  if r < 1 / 2 then n
  else if 1 / 2 < r then n + 1
  else if n % 2 = 0 then n else n + 1

/-- Left-pad a digit string with zeros to width 6. -/
def padSixDigits (s : String) : String :=
  String.mk (List.replicate (6 - s.length) '0') ++ s

/-- Model of `format!("{:.6}", v)`. -/
def formatFixed6 (v : ℚ) : String :=
  let neg := v < 0
  let n := roundHalfEven (|v| * 1000000)
  (if neg then "-" else "") ++ toString (n / 1000000) ++ "." ++ padSixDigits (toString (n % 1000000))

/-- The value computation of `parse_numeric_value`:
`fraction as f64 / (1u64 << 56) as f64` times `16.0.powi(exponent)`,
negated on a set sign bit. -/
def ibmValueQ (sign : Bool) (exponent : ℤ) (fraction : Nat) : ℚ :=
  let v : ℚ := (fraction : ℚ) / ((2 : ℚ) ^ 56) * powiQ 16 exponent
  if sign then -v else v

/-- `XPTParser::parse_numeric_value` (src/xpt_parser.rs).  The value is
computed in exact arithmetic; `value.is_finite()` is always true in this
model (and in the source for every reachable exponent), so only the
finite rendering branch is taken. -/
def parseNumericValue (data : List Nat) : String :=
  if data.length < 8 then ""
  else
    let bytes := data.take 8
    if bytes.all (· == 0) then "0"
    else if bytes.headD 0 = 0x2E then ""
    else
      let b0 := bytes.headD 0
      let sign : Bool := (b0 &&& 0x80) ≠ 0
      let exponent : ℤ := ((b0 &&& 0x7F : Nat) : ℤ) - 64
      let fraction : Nat := (bytes.drop 1).foldl (fun acc b => acc * 256 + b) 0
      if fraction = 0 then (if sign then "-0" else "0")
      else
        let formatted := formatFixed6 (ibmValueQ sign exponent fraction)
        let trimmed := trimEndChar '.' (trimEndChar '0' formatted)
        if trimmed = "" then "0" else trimmed

/-! ## src/xpt_parser.rs — descriptor and cell parsing -/

/-- `XPTParser::parse_name_string`. -/
def parseNameString (data : List Nat) : Option NameStringRecord :=
  if data.length < NAME_STRING_RECORD_LENGTH then Option.none
  else
    some
      { var_type := be16 (data.getD 0 0) (data.getD 1 0)
        length := be16 (data.getD 4 0) (data.getD 5 0)
        position := be16 (data.getD 6 0) (data.getD 7 0)
        name := asciiString data 8 8
        label := asciiString data 16 40 }

/-- `XPTParser::parse_cell` (the Rust parameter is named `variable`, a
reserved word here). -/
def parseCell (data : List Nat) (v : XPTVariable) : String :=
  match v.var_type with
  | VariableType.Character => asciiStringTrimmed data
  | VariableType.Numeric => parseNumericValue data

/-! ## src/xpt_parser.rs — dataset title -/

/-- The byte pattern `b"MEMBER  NAME"`. -/
def strBytes (s : String) : List Nat := s.toList.map Char.toNat

/-- Model of `Path::new(fallback).file_stem()`: final path component with
the extension after the last dot removed.  The decode entry point always
passes `None` for the fallback, so this branch is never exercised by the
theorems below; it is modelled for totality. -/
def fileStem (f : String) : Option String :=
  match (f.toList.splitOnP (· == '/')).getLast? with
  | Option.none => Option.none
  | some name =>
    if name = [] then Option.none
    else
      let pieces := name.splitOnP (· == '.')
      match pieces with
      | [] => Option.none
      | [whole] => some (String.mk whole)
      | first :: _ =>
        if first = [] then some (String.mk name)  -- hidden files like ".bashrc"
        else some (String.mk (name.take (name.length - ((pieces.getLastD []).length + 1))))

/-- `XPTParser::infer_dataset_title`. -/
def inferDatasetTitle (data : List Nat) (fallback : Option String) : String :=
  let marker := strBytes "MEMBER  NAME"
  let fromMarker : Option String :=
    match findBytes data marker with
    | some pos =>
      let start := pos + marker.length
      let limit := min (start + 80) data.length
      match utf8Strict (sliceList data start limit) with
      | some text =>
        let components := (text.splitOnP (fun c => c == ' ' || c == Char.ofNat 0)).filter (· ≠ [])
        match components with
        | first :: _ => some (String.mk (rustTrim first))
        | [] => Option.none
      | Option.none => Option.none
    | Option.none => Option.none
  match fromMarker with
  | some t => t
  | Option.none =>
    match fallback with
    | some f =>
      match fileStem f with
      | some n => n
      | Option.none => "XPT Dataset"
    | Option.none => "XPT Dataset"

/-! ## src/xpt_parser.rs — variable ordering

The source sorts `Vec<(usize, NameStringRecord)>` (declaration index
paired with the record) with a comparator on `(effective order, index)`
where the effective order falls back to `index + 1` for a zero `position`
field.  The comparator is a total order that is antisymmetric on the
enumerated list (indices are distinct), so the stable sort's result is
the unique sorted permutation; any correct sort produces it, and the
embedding uses insertion sort. -/

/-- `if position > 0 { position } else { idx + 1 }`. -/
def effectiveOrder (idx : Nat) (r : NameStringRecord) : Nat :=
  if r.position > 0 then r.position else idx + 1

/-- The comparator of `XPTParser::parse`
(`lhs_order.cmp(&rhs_order).then_with(|| lhs_idx.cmp(rhs_idx))`) as a
non-strict order. -/
def recordLe (a b : Nat × NameStringRecord) : Prop :=
  effectiveOrder a.1 a.2 < effectiveOrder b.1 b.2 ∨
    (effectiveOrder a.1 a.2 = effectiveOrder b.1 b.2 ∧ a.1 ≤ b.1)

instance : DecidableRel recordLe := fun _ _ => by unfold recordLe; infer_instance

instance : IsTotal (Nat × NameStringRecord) recordLe :=
  ⟨fun a b => by unfold recordLe; omega⟩

instance : IsTrans (Nat × NameStringRecord) recordLe :=
  ⟨fun a b c hab hbc => by unfold recordLe at *; omega⟩

/-- The `ordered_records` sort of `XPTParser::parse`. -/
def orderRecords (records : List NameStringRecord) : List (Nat × NameStringRecord) :=
  List.insertionSort recordLe records.enum

/-- The `variables` construction of `XPTParser::parse` (maps the sorted
records, applying the minimum lengths and `VAR{n}` fallback names). -/
def buildVariables (ordered : List (Nat × NameStringRecord)) : List XPTVariable :=
  ordered.enum.map fun (p : Nat × (Nat × NameStringRecord)) =>
    let index := p.1
    let record := p.2.2
    let baseName := if record.name = "" then "VAR" ++ toString (index + 1) else record.name
    let varType := if record.var_type = 1 then VariableType.Numeric else VariableType.Character
    let length :=
      if varType = VariableType.Numeric then max record.length MIN_NUMERIC_LENGTH
      else max record.length MIN_CHARACTER_LENGTH
    { name := baseName, label := record.label, var_type := varType,
      length := length, position := record.position }

/-! ## src/xpt_parser.rs — row width resolution and row decoding -/

/-- `((storage_width as f64 / 8.0).ceil() as usize) * 8` — the source
computes the round-up through `f64`; exact for every width below `2^52`,
embedded as the exact integer ceiling. -/
def roundUpToMultipleOf8 (w : Nat) : Nat := ((w + 7) / 8) * 8

/-- The candidate-stride loop of `XPTParser::parse`: try each candidate
in order; accept on exact division, or when the trailing remainder bytes
are all `0x00`/`0x20` filler (discarding them); otherwise move on. -/
def resolveRowWidthLoop (raw : List Nat) : List Nat → Option (Nat × List Nat)
  | [] => Option.none
  | candidate :: rest =>
    let remainder := raw.length % candidate
    if remainder = 0 then some (candidate, raw)
    else
      let fillerStart := raw.length - remainder
      if (raw.drop fillerStart).all (fun b => b == 0x00 || b == 0x20) then
        some (candidate, raw.take fillerStart)
      else resolveRowWidthLoop raw rest

/-- The per-row variable walk of `XPTParser::parse`: slice `length` bytes
for each variable at the running offset; `break` (stop) if the next slice
would run past the row. -/
def parseRowValues (vars : List XPTVariable) (rowData : List Nat) (offset : Nat) : List String :=
  match vars with
  | [] => []
  | v :: rest =>
    if offset + v.length > rowData.length then []
    else
      parseCell (sliceList rowData offset (offset + v.length)) v ::
        parseRowValues rest rowData (offset + v.length)

/-- The row loop of `XPTParser::parse` over `row_idx in 0..observation_count`:
`break` when a full `storage_width` slice no longer fits; push a row only
when it has one value per variable. -/
def parseRowsGo (vars : List XPTVariable) (storageWidth rowWidth : Nat) (obs : List Nat) :
    Nat → Nat → List XPTRow
  | _, 0 => []
  | rowIdx, Nat.succ remaining =>
    let rowStart := rowIdx * rowWidth
    let rowEnd := rowStart + storageWidth
    if rowEnd > obs.length then []
    else
      let rowData := sliceList obs rowStart rowEnd
      let rowValues := parseRowValues vars rowData 0
      (if rowValues.length = vars.length then [XPTRow.mk rowValues] else []) ++
        parseRowsGo vars storageWidth rowWidth obs (rowIdx + 1) remaining

/-! ## src/xpt_parser.rs — `XPTParser::parse` -/

/-- `b"HEADER RECORD*******NAMESTR HEADER RECORD!!!!!!!"`. -/
def namestrHeaderPat : List Nat := strBytes "HEADER RECORD*******NAMESTR HEADER RECORD!!!!!!!"

/-- `b"HEADER RECORD*******OBS     HEADER RECORD!!!!!!!"`. -/
def obsHeaderPat : List Nat := strBytes "HEADER RECORD*******OBS     HEADER RECORD!!!!!!!"

/-- `XPTParser::parse` (src/xpt_parser.rs), the decoder behind the public
entry point.  Error strings are the source's `anyhow!` messages.  The one
place the source can panic — `&data[obs_data_start..]` when the aligned
start exceeds the buffer — is modelled as an error with a distinguished
message. -/
def XPTParser.parse (data : List Nat) (suggestedFilename : Option String) :
    Except String XPTDataset :=
  if data.length < RECORD_SIZE then Except.error "File too small to be a valid XPT file"
  else
    match findBytes data namestrHeaderPat with
    | Option.none => Except.error "NAMESTR header not found"
    | some namestrHeaderPos =>
      match findBytes data obsHeaderPat with
      | Option.none => Except.error "OBS header not found"
      | some obsHeaderPos =>
        let nameStrBlockStart := alignToRecordBoundary (namestrHeaderPos + namestrHeaderPat.length)
        let nameStrBlockEnd := obsHeaderPos
        if nameStrBlockEnd ≤ nameStrBlockStart then Except.error "Invalid header positions"
        else
          let nameStringBlock := sliceList data nameStrBlockStart nameStrBlockEnd
          if nameStringBlock.length < NAME_STRING_RECORD_LENGTH then
            Except.error "Name string block too small"
          else
            let recordCount := nameStringBlock.length / NAME_STRING_RECORD_LENGTH
            if recordCount = 0 then Except.error "The file does not include variable metadata"
            else
              let nameRecords := (List.range recordCount).filterMap fun i =>
                let start := i * NAME_STRING_RECORD_LENGTH
                let stop := start + NAME_STRING_RECORD_LENGTH
                if stop ≤ nameStringBlock.length then
                  parseNameString (sliceList nameStringBlock start stop)
                else Option.none
              if nameRecords = [] then Except.error "Variable descriptors could not be parsed"
              else
                let datasetTitle := inferDatasetTitle data suggestedFilename
                let orderedRecords := orderRecords nameRecords
                let vars := buildVariables orderedRecords
                let obsDataStart := alignToRecordBoundary (obsHeaderPos + obsHeaderPat.length)
                if data.length < obsDataStart then Except.error "slice start index out of range"
                else
                  let rawObservationBytes := data.drop obsDataStart
                  let storageWidth := (vars.map (fun v => v.length)).sum
                  if storageWidth = 0 then Except.error "Variables have zero length"
                  else
                    match resolveRowWidthLoop rawObservationBytes
                        [storageWidth, roundUpToMultipleOf8 storageWidth] with
                    | Option.none => Except.error "Unable to determine observation width"
                    | some (rowWidth, observationBytes) =>
                      if observationBytes.length < rowWidth then
                        Except.error "Observation data too small"
                      else
                        let observationCount := observationBytes.length / rowWidth
                        let rows :=
                          parseRowsGo vars storageWidth rowWidth observationBytes 0 observationCount
                        Except.ok (XPTDataset.mk datasetTitle vars rows)

/-! ## src/lib.rs — public API -/

/-- `struct VarMeta` (src/lib.rs). -/
structure VarMeta where
  name : String
  label : String
  length : Nat
  position : Nat
  is_char : Bool
deriving DecidableEq, Repr

/-- `struct Dataset` (src/lib.rs). -/
structure Dataset where
  name : String
  (vars : List VarMeta)
  (rows : List (List (Option String)))
deriving DecidableEq, Repr

/-- The per-cell conversion of `read_xpt_v5_from_bytes`:
`if v.is_empty() { None } else { Some(v.clone()) }`. -/
def cellToOption (v : String) : Option String :=
  if v.isEmpty then Option.none else some v

/-- `read_xpt_v5_from_bytes` (src/lib.rs): parse with no suggested
filename, convert to the public `Dataset` shape, and wrap the single
parsed dataset in a one-element list. -/
def read_xpt_v5_from_bytes (data : List Nat) : Except String (List Dataset) :=
  match XPTParser.parse data Option.none with
  | Except.error e => Except.error e
  | Except.ok xptDataset =>
    let vars := xptDataset.variables.map fun v =>
      VarMeta.mk v.name v.label v.length v.position (v.var_type == VariableType.Character)
    let rows := xptDataset.rows.map fun row => row.values.map cellToOption
    Except.ok [Dataset.mk xptDataset.title vars rows]

/-! ## Concrete transport files used by the theorems

Helpers build 80-byte cards and 140-byte NAMESTR descriptor records in
the layout of the SAS transport (TS-140) format. -/

/-- An 80-byte card: ASCII text padded on the right with blanks. -/
def cardOf (s : String) : List Nat := strBytes s ++ List.replicate (80 - s.length) 0x20

/-- `n` zero bytes. -/
def zeroBytes (n : Nat) : List Nat := List.replicate n 0x00

/-- `n` blank bytes. -/
def blankBytes (n : Nat) : List Nat := List.replicate n 0x20

/-- A 140-byte NAMESTR descriptor record: big-endian shorts `ntype`,
`nhfun`, `nlng`, `nvar0`, 8-byte name, 40-byte label, format and informat
fields blank/zero, 32-bit `npos`, 52 zero filler bytes. -/
def descRecord (vtype len varnum : Nat) (name : String) (npos : Nat) : List Nat :=
  [0, vtype, 0, 0, 0, len, 0, varnum] ++
    (strBytes name ++ blankBytes (8 - name.length)) ++
    blankBytes 40 ++ blankBytes 8 ++ zeroBytes 8 ++ blankBytes 8 ++ zeroBytes 4 ++
    [0, 0, npos / 256, npos % 256] ++ zeroBytes 52

/-- The LIBRARY banner card. -/
def libraryBannerCard : List Nat :=
  cardOf "HEADER RECORD*******LIBRARY HEADER RECORD!!!!!!!000000000000000000000000000000"

/-- The MEMBER banner card (nominal 0160/0140 descriptor-size fields). -/
def memberBannerCard : List Nat :=
  cardOf "HEADER RECORD*******MEMBER  HEADER RECORD!!!!!!!000000000000000001600000000140"

/-- The DSCRPTR banner card. -/
def dscrptrBannerCard : List Nat :=
  cardOf "HEADER RECORD*******DSCRPTR HEADER RECORD!!!!!!!000000000000000000000000000000"

/-- A NAMESTR banner card carrying the four-ASCII-digit variable-count
hint at byte offset 54. -/
def namestrBannerCard (count4 : String) : List Nat :=
  cardOf ("HEADER RECORD*******NAMESTR HEADER RECORD!!!!!!!000000" ++ count4 ++
    "00000000000000000000")

/-- The OBS banner card. -/
def obsBannerCard : List Nat :=
  cardOf "HEADER RECORD*******OBS     HEADER RECORD!!!!!!!000000000000000000000000000000"

/-- A minimal valid single-member file with one character variable `X` of
width 4 and two observations `AB`, `CD` (used as the concrete success
input of several witnesses). -/
def fileSingleVar : List Nat :=
  namestrBannerCard "0001" ++
    (descRecord 2 4 1 "X" 0 ++ zeroBytes 20) ++
    obsBannerCard ++
    strBytes "AB  CD  "

/-- A file whose NAMESTR section starts with two all-zero filler cards
before its single real descriptor (the padding tolerated per the spec's
count-resolution rule), followed by one card of blank observations. -/
def fileZeroFiller : List Nat :=
  namestrBannerCard "0001" ++
    zeroBytes 160 ++
    (descRecord 2 4 1 "X" 0 ++ zeroBytes 20) ++
    obsBannerCard ++
    blankBytes 80

/-- One character variable of width 3; seven observation bytes, so the
block is not divisible by the row width and the trailing byte is blank
filler. -/
def fileBlankRemainder : List Nat :=
  namestrBannerCard "0001" ++
    (descRecord 2 3 1 "C" 0 ++ zeroBytes 20) ++
    obsBannerCard ++
    strBytes "ABCDEF "

/-- The same file with a non-blank trailing remainder byte. -/
def fileBadRemainder : List Nat :=
  namestrBannerCard "0001" ++
    (descRecord 2 3 1 "C" 0 ++ zeroBytes 20) ++
    obsBannerCard ++
    strBytes "ABCDEFG"

/-- Two character variables of width 1: `A` declared first with position
field 2, `B` declared second with position field 0; one observation. -/
def fileMixedPositions : List Nat :=
  namestrBannerCard "0002" ++
    (descRecord 2 1 2 "A" 0 ++ descRecord 2 1 0 "B" 0 ++ zeroBytes 40) ++
    obsBannerCard ++
    strBytes "XY"

/-- The descriptor block of one member: three 140-byte descriptors (two
numeric variables of width 8 and one character variable of width 4)
padded to a card boundary with zeros. -/
def memberDescBlock : List Nat :=
  descRecord 1 8 1 "NUM1" 0 ++ descRecord 1 8 2 "NUM2" 8 ++
    descRecord 2 4 3 "CHR1" 16 ++ zeroBytes 60

/-- The same 480-byte descriptor block as six 80-byte cards. -/
def memberDescCards : List (List Nat) :=
  [sliceList memberDescBlock 0 80, sliceList memberDescBlock 80 160,
   sliceList memberDescBlock 160 240, sliceList memberDescBlock 240 320,
   sliceList memberDescBlock 320 400, sliceList memberDescBlock 400 480]

/-- One complete member cycle in the nominal transport layout, as a list
of thirteen 80-byte cards: MEMBER and DSCRPTR banners, two member-data
cards, NAMESTR banner (count hint 0003), six descriptor cards, OBS
banner, and one 20-byte observation row blank-padded to a card. -/
def memberCycleCards (dsname chr : String) : List (List Nat) :=
  [memberBannerCard,
   dscrptrBannerCard,
   cardOf ("SAS     " ++ dsname ++ "     SASDATA 9.4     X64_10PR"),
   cardOf "12OCT26:00:00:00",
   namestrBannerCard "0003"] ++
  memberDescCards ++
  [obsBannerCard,
   [0x41, 0x10, 0, 0, 0, 0, 0, 0] ++ [0x41, 0x20, 0, 0, 0, 0, 0, 0] ++
     strBytes chr ++ blankBytes 60]

/-- A valid two-member transport file as a list of 29 cards: LIBRARY
wrapper (banner plus two library header cards) followed by two complete
member cycles, each with two numeric and one character variable and one
observation row. -/
def fileTwoMembersCards : List (List Nat) :=
  [libraryBannerCard,
   cardOf "SAS     SAS     SASLIB  9.4     X64_10PR",
   cardOf "12OCT26:00:00:00"] ++
  memberCycleCards "DS1" "ABCD" ++
  memberCycleCards "DS2" "EFGH"

/-- The two-member transport file as a flat byte buffer. -/
def fileTwoMembers : List Nat := fileTwoMembersCards.flatten

/-! ## Specification-side definitions

These two definitions follow the words of the specification (not the
source); they exist to be compared against the source-derived
definitions above. -/

/-- Specification-side (spec §4.3 wording): discard any all-zero filler
cards that precede the first descriptor.  (Structured with explicit fuel
— one unit per discarded card, so the block length suffices — to keep
the definition computable by kernel reduction.) -/
def dropLeadingZeroCardsGo : Nat → List Nat → List Nat
  | 0, block => block
  | fuel + 1, block =>
    if 80 ≤ block.length ∧ (block.take 80).all (· == 0) then
      dropLeadingZeroCardsGo fuel (block.drop 80)
    else block

def dropLeadingZeroCards (block : List Nat) : List Nat :=
  dropLeadingZeroCardsGo block.length block

/-- Specification-side (spec §4.3 wording): the authoritative variable
count — the byte span between the card-aligned end of the NAMESTR banner
and the OBS banner, divided by 140 after discarding leading all-zero
filler cards. -/
def specVariableCount (data : List Nat) : Option Nat :=
  match findBytes data namestrHeaderPat, findBytes data obsHeaderPat with
  | some ns, some ob =>
    let start := alignToRecordBoundary (ns + namestrHeaderPat.length)
    some ((dropLeadingZeroCards (sliceList data start ob)).length / NAME_STRING_RECORD_LENGTH)
  | _, _ => Option.none

/-- Specification-side (spec §4.5 wording): stride `s` is acceptable for
an observation region exactly when the region divides evenly, or when the
trailing `T mod s` bytes are entirely blank/zero filler. -/
def acceptsStride (s : Nat) (obs : List Nat) : Prop :=
  obs.length % s = 0 ∨
    ∀ b ∈ obs.drop (obs.length - obs.length % s), b = 0x00 ∨ b = 0x20

instance (s : Nat) (obs : List Nat) : Decidable (acceptsStride s obs) := by
  unfold acceptsStride; infer_instance

/-- Specification-side (spec §4.5 wording): the trailing filler region
discarded before slicing rows. -/
def discardTrailing (s : Nat) (obs : List Nat) : List Nat :=
  if obs.length % s = 0 then obs else obs.take (obs.length - obs.length % s)

/-! ## Helper lemmas -/

lemma filterMap_length_of_isSome {α β : Type _} (l : List α) (f : α → Option β)
    (h : ∀ a ∈ l, (f a).isSome) : (l.filterMap f).length = l.length := by
  induction l with
  | nil => rfl
  | cons a t ih =>
    have ha := h a (List.mem_cons_self a t)
    obtain ⟨b, hb⟩ := Option.isSome_iff_exists.mp ha
    simp [List.filterMap_cons, hb, ih fun x hx => h x (List.mem_cons_of_mem a hx)]

lemma sliceList_length (data : List Nat) (start stop : Nat) :
    (sliceList data start stop).length = min (stop - start) (data.length - start) := by
  simp [sliceList]

lemma findBytesGo_bound (pat : List Nat) :
    ∀ (l : List Nat) (i j : Nat), findBytesGo pat l i = some j →
      i ≤ j ∧ j + pat.length ≤ i + l.length := by
  intro l
  induction l with
  | nil =>
    intro i j h
    simp only [findBytesGo] at h
    split at h
    · next hp => cases h; omega
    · cases h
  | cons b rest ih =>
    intro i j h
    simp only [findBytesGo] at h
    split at h
    · cases h
    · split at h
      · next hlt htake =>
        cases h
        simp only [not_lt] at hlt
        constructor
        · exact le_refl _
        · simpa using hlt
      · have := ih (i + 1) j h
        simp only [List.length_cons]
        omega

lemma findBytes_bound (data pat : List Nat) (j : Nat) (h : findBytes data pat = some j) :
    j + pat.length ≤ data.length := by
  have := findBytesGo_bound pat data 0 j h
  omega

lemma length_orderRecords (records : List NameStringRecord) :
    (orderRecords records).length = records.length := by
  unfold orderRecords
  rw [(List.perm_insertionSort recordLe records.enum).length_eq, List.enum_length]

lemma length_buildVariables (ordered : List (Nat × NameStringRecord)) :
    (buildVariables ordered).length = ordered.length := by
  simp [buildVariables]

lemma parseNameString_isSome (data : List Nat) (h : NAME_STRING_RECORD_LENGTH ≤ data.length) :
    (parseNameString data).isSome := by
  unfold parseNameString
  rw [if_neg (by omega)]
  rfl

lemma all_filler_iff (l : List Nat) :
    (l.all fun b => b == 0x00 || b == 0x20) = true ↔ ∀ b ∈ l, b = 0x00 ∨ b = 0x20 := by
  simp [List.all_eq_true]

lemma mem_parseRowsGo (vars : List XPTVariable) (sw rw : Nat) (obs : List Nat) :
    ∀ (n i : Nat) (r : XPTRow), r ∈ parseRowsGo vars sw rw obs i n →
      r.values.length = vars.length := by
  intro n
  induction n with
  | zero => intro i r h; simp [parseRowsGo] at h
  | succ k ih =>
    intro i r h
    simp only [parseRowsGo] at h
    split at h
    · simp at h
    · rw [List.mem_append] at h
      rcases h with h | h
      · split at h
        · next hlen => rw [List.mem_singleton] at h; subst h; exact hlen
        · simp at h
      · exact ih (i + 1) r h

end XptRs

/-! ## Decidable equality for `Except` results -/

deriving instance DecidableEq for Except

namespace XptRs

/-- The dataset decoded from `fileSingleVar` (checked by evaluation in
the witnesses below). -/
def datasetSingleVar : XPTDataset :=
  { title := "XPT Dataset",
    «variables» := [{ name := "X", label := "", var_type := VariableType.Character,
                      length := 4, position := 1 }],
    rows := [XPTRow.mk ["AB"], XPTRow.mk ["CD"]] }

/-- `read_xpt_v5_from_bytes` wraps the one parsed `XPTDataset` in a
one-element `Vec`; shared by the C1 theorem and counterexample. -/
lemma read_xpt_len (data : List Nat) (ds : List Dataset)
    (h : read_xpt_v5_from_bytes data = Except.ok ds) : ds.length = 1 := by
  unfold read_xpt_v5_from_bytes at h
  split at h
  · exact Except.noConfusion h
  · injection h with hd
    subst hd
    rfl

/-! ## Claim theorems -/

/-- C1 (amended): on every successful decode the public entry point
returns a list of exactly one dataset — the single dataset that
`XPTParser::parse` assembles from the first NAMESTR/OBS header pair —
regardless of how many members the transport file contains. -/
theorem read_xpt_v5_from_bytes_singleton (data : List Nat) (ds : List Dataset)
    (h : read_xpt_v5_from_bytes data = Except.ok ds) : ds.length = 1 :=
  read_xpt_len data ds h

set_option maxRecDepth 8000 in
/-- Witness for C1 (amended): the concrete single-variable transport
file decodes successfully, to a list of length one. -/
theorem read_xpt_v5_from_bytes_singleton_witness :
    ([Dataset.mk "XPT Dataset" [VarMeta.mk "X" "" 4 1 true]
        [[some "AB"], [some "CD"]]] : List Dataset).length = 1 :=
  read_xpt_v5_from_bytes_singleton fileSingleVar _ (by decide)

set_option maxRecDepth 8000 in
/-- C1 counterexample: `fileTwoMembers` is a valid two-member transport
file — 29 cards of 80 bytes: a LIBRARY wrapper (card 0 is the LIBRARY
banner) and two complete member cycles (MEMBER banners at cards 3 and
16, NAMESTR banners at cards 7 and 20, OBS banners at cards 14 and 27,
each member declaring two numeric and one character variable with one
observation row) — yet the decode entry point does not return a list of
two datasets on it: whatever `read_xpt_v5_from_bytes` returns, it is not
a two-dataset list. -/
theorem two_member_file_decodes_to_single_dataset :
    fileTwoMembersCards.length = 29 ∧
    fileTwoMembersCards.all (fun c => c.length = 80) ∧
    fileTwoMembersCards.getD 0 [] = libraryBannerCard ∧
    fileTwoMembersCards.getD 3 [] = memberBannerCard ∧
    fileTwoMembersCards.getD 16 [] = memberBannerCard ∧
    fileTwoMembersCards.getD 7 [] = namestrBannerCard "0003" ∧
    fileTwoMembersCards.getD 20 [] = namestrBannerCard "0003" ∧
    fileTwoMembersCards.getD 14 [] = obsBannerCard ∧
    fileTwoMembersCards.getD 27 [] = obsBannerCard ∧
    (read_xpt_v5_from_bytes fileTwoMembers).map List.length ≠ Except.ok 2 := by
  refine ⟨by decide, by decide, by decide, by decide, by decide, by decide, by decide,
    by decide, by decide, ?_⟩
  intro hcontra
  cases hread : read_xpt_v5_from_bytes fileTwoMembers with
  | error e => rw [hread] at hcontra; exact Except.noConfusion hcontra
  | ok ds =>
    rw [hread] at hcontra
    simp only [Except.map] at hcontra
    injection hcontra with hlen
    have := read_xpt_len fileTwoMembers ds hread
    omega

/-- The nibble loop of `ibm64_to_f64` on the fraction of the encoded
value `1.0`: the first nibble is divided by `denom = 1` (not 16), so the
loop yields `1` where the IBM/370 fraction value is `1/16`. -/
lemma ibmLoop_value : ibmLoop 14 0 1 4503599627370496 = 1 := by
  simp only [ibmLoop]
  simp
  norm_num
  simp only [show (16 &&& 15 : Nat) = 0 from by decide,
    show (256 &&& 15 : Nat) = 0 from by decide]
  norm_num

/-- `format!("{:.6}", 1.0)`. -/
lemma formatFixed6_one : formatFixed6 1 = "1.000000" := by
  unfold formatFixed6 roundHalfEven padSixDigits
  norm_num
  simp
  rfl

/-- C2: on the hand-encoded IBM/370 pattern for `1.0`
(`{0x41,0x10,0,0,0,0,0,0}`), the `ibm370.rs` float decoder returns 16.0
— sixteen times the claimed value — because its nibble loop divides the
`k`-th hex digit by `16^(k-1)` instead of `16^k` (`denom` starts at 1.0
and is only multiplied after use).  The pipeline's own numeric decoder
`parse_numeric_value`, which divides the 56-bit fraction by `2^56`,
decodes the same bytes to `1` as the claim demands, confirming the
intent and isolating the slip in `ibm64_to_f64`. -/
theorem ibm64_to_f64_one_pattern_gives_sixteen :
    ibm64_to_f64 [0x41, 0x10, 0, 0, 0, 0, 0, 0] = (some 16, IbmMissing.none) ∧
    parseNumericValue [0x41, 0x10, 0, 0, 0, 0, 0, 0] = "1" ∧ (16 : ℚ) ≠ (1 : ℚ) := by
  refine ⟨?_, ?_, by norm_num⟩
  · simp [ibm64_to_f64, show (65 &&& 128 : Nat) = 0 from by decide,
      show (65 &&& 127 : Nat) = 65 from by decide]
    rw [ibmLoop_value]
    norm_num [powiQ]
  · simp [parseNumericValue, show (65 &&& 128 : Nat) = 0 from by decide,
      show (65 &&& 127 : Nat) = 65 from by decide]
    rw [show ibmValueQ false 1 4503599627370496 = 1 from by norm_num [ibmValueQ, powiQ],
      formatFixed6_one]
    decide

/-- C3: on eight zero bytes the `ibm370.rs` float decoder returns no
numeric value at all (`(None, IbmMissing::None)`) rather than `0.0`: the
`bytes[1..]` all-zero branch captures `bytes[0] = 0` in its catch-all
arm, making the dedicated zero check below it unreachable.  The
pipeline's own `parse_numeric_value` returns `"0"` for the same input,
as the claim (and the unreachable check) intend. -/
theorem ibm64_to_f64_all_zero_gives_no_value :
    ibm64_to_f64 (List.replicate 8 0) = (Option.none, IbmMissing.none) ∧
    parseNumericValue (List.replicate 8 0) = "0" :=
  ⟨by decide, by decide⟩

/-- C4: for every 8-byte input whose bytes 1–7 are all zero, the
`ibm370.rs` float decoder classifies byte 0 in `'A'..='Z'` as the named
missing value carrying that letter, and byte 0 in `{0x2E, 0x5F}` as the
generic missing value. -/
theorem ibm64_to_f64_missing_classification :
    ∀ (b0 : Nat) (rest : List Nat), rest.length = 7 → (∀ b ∈ rest, b = 0) →
      ((0x41 ≤ b0 ∧ b0 ≤ 0x5A →
          ibm64_to_f64 (b0 :: rest) = (Option.none, IbmMissing.letter b0)) ∧
       (b0 = 0x2E ∨ b0 = 0x5F →
          ibm64_to_f64 (b0 :: rest) = (Option.none, IbmMissing.dot))) := by
  intro b0 rest hlen hzero
  have hall : rest.all (· == 0x00) = true := by
    rw [List.all_eq_true]; intro b hb; simpa using hzero b hb
  have hlen8 : ¬((b0 :: rest).length < 8) := by simp [hlen]
  constructor
  · intro hr
    unfold ibm64_to_f64
    rw [if_neg hlen8]
    simp only [hall, if_true]
    rw [if_neg (by omega : ¬(b0 = 0x2E ∨ b0 = 0x5F)), if_pos hr]
  · intro hd
    unfold ibm64_to_f64
    rw [if_neg hlen8]
    simp only [hall, if_true]
    rw [if_pos hd]

/-- Witness for C4 at byte 0 = `'A'` and byte 0 = `'.'`. -/
theorem ibm64_to_f64_missing_classification_witness :
    ibm64_to_f64 (0x41 :: List.replicate 7 0) = (Option.none, IbmMissing.letter 0x41) ∧
    ibm64_to_f64 (0x2E :: List.replicate 7 0) = (Option.none, IbmMissing.dot) :=
  ⟨(ibm64_to_f64_missing_classification 0x41 (List.replicate 7 0) (by decide) (by decide)).1
      ⟨by decide, by decide⟩,
   (ibm64_to_f64_missing_classification 0x2E (List.replicate 7 0) (by decide) (by decide)).2
      (Or.inl rfl)⟩

set_option maxRecDepth 8000 in
/-- C5 counterexample: on a file whose NAMESTR section carries two
all-zero filler cards before its single real descriptor, the parser
reports 2 variables — it slices the zero cards into descriptor records
instead of discarding them — while the count prescribed by the
specification (geometric span divided by 140 after discarding the
leading zero cards, `specVariableCount`) is 1. -/
theorem parse_counts_zero_filler_as_descriptors :
    (XPTParser.parse fileZeroFiller Option.none).map (fun d => d.variables.length) =
      Except.ok 2 ∧
    specVariableCount fileZeroFiller = some 1 ∧ (2 : Nat) ≠ 1 :=
  ⟨by decide, by decide, by decide⟩

/-- C5 (amended): on every successful parse, the variable count is the
byte span from the card-aligned end of the NAMESTR banner to the OBS
banner divided by 140, computed purely from the banner positions —
leading all-zero filler cards are *not* discarded (they are parsed as
descriptor bytes), and the hinted count at byte offset 54 of the NAMESTR
header is never read; a zero computed count (or a span shorter than one
descriptor) is rejected as an error, which this theorem reflects as
`0 < count` on the success path. -/
theorem parse_variable_count_geometry (data : List Nat) (s : Option String) (d : XPTDataset)
    (ns ob : Nat) (h : XPTParser.parse data s = Except.ok d)
    (hns : findBytes data namestrHeaderPat = some ns)
    (hob : findBytes data obsHeaderPat = some ob) :
    d.variables.length =
      (ob - alignToRecordBoundary (ns + namestrHeaderPat.length)) / NAME_STRING_RECORD_LENGTH ∧
    0 < d.variables.length := by
  have hoble : ob ≤ data.length :=
    le_trans (Nat.le_add_right _ _) (findBytes_bound data obsHeaderPat ob hob)
  simp only [XPTParser.parse, NAME_STRING_RECORD_LENGTH, RECORD_SIZE, hns, hob] at h
  repeat' split at h
  all_goals try exact Except.noConfusion h
  injection h with hd
  subst hd
  simp only [NAME_STRING_RECORD_LENGTH]
  have hblock :
      (sliceList data (alignToRecordBoundary (ns + namestrHeaderPat.length)) ob).length =
        ob - alignToRecordBoundary (ns + namestrHeaderPat.length) := by
    rw [sliceList_length]; omega
  have hsome : ∀ i ∈ List.range
      ((sliceList data (alignToRecordBoundary (ns + namestrHeaderPat.length)) ob).length / 140),
      (if i * 140 + 140 ≤
          (sliceList data (alignToRecordBoundary (ns + namestrHeaderPat.length)) ob).length then
        parseNameString
          (sliceList (sliceList data (alignToRecordBoundary (ns + namestrHeaderPat.length)) ob)
            (i * 140) (i * 140 + 140))
      else Option.none).isSome := by
    intro i hi
    rw [List.mem_range] at hi
    have hle : i * 140 + 140 ≤
        (sliceList data (alignToRecordBoundary (ns + namestrHeaderPat.length)) ob).length := by
      omega
    rw [if_pos hle]
    apply parseNameString_isSome
    rw [sliceList_length]
    simp only [NAME_STRING_RECORD_LENGTH]
    omega
  constructor
  · rw [length_buildVariables, length_orderRecords, filterMap_length_of_isSome _ _ hsome,
      List.length_range, hblock]
  · rw [length_buildVariables, length_orderRecords, filterMap_length_of_isSome _ _ hsome,
      List.length_range]
    omega

set_option maxRecDepth 8000 in
/-- Witness for C5 (amended) on the concrete single-variable file:
NAMESTR banner at 0, OBS banner at 240, one variable = (240 − 80)/140. -/
theorem parse_variable_count_geometry_witness :
    datasetSingleVar.variables.length =
      (240 - alignToRecordBoundary (0 + namestrHeaderPat.length)) / NAME_STRING_RECORD_LENGTH ∧
    0 < datasetSingleVar.variables.length :=
  parse_variable_count_geometry fileSingleVar Option.none datasetSingleVar 0 240
    (by decide) (by decide) (by decide)

set_option maxRecDepth 8000 in
/-- C6: the candidate-stride loop accepts a stride `s` from
`{W, round_up_to_multiple_of_8(W)}`, trying `W` first, exactly when the
observation byte count divides evenly by `s` or the trailing `T mod s`
bytes are all blank/zero filler (in which case that trailing region is
discarded); when neither candidate qualifies the result is `none`, which
`XPTParser::parse` turns into the row-width error.  Concretely, the
synthetic file with a blank trailing remainder decodes to two rows with
the remainder discarded, and the same file with a non-blank remainder
fails with the row-width error. -/
theorem row_width_resolution_spec :
    (∀ (w : Nat) (obs : List Nat), 0 < w →
      (acceptsStride w obs →
        resolveRowWidthLoop obs [w, roundUpToMultipleOf8 w] = some (w, discardTrailing w obs)) ∧
      (¬acceptsStride w obs → acceptsStride (roundUpToMultipleOf8 w) obs →
        resolveRowWidthLoop obs [w, roundUpToMultipleOf8 w] =
          some (roundUpToMultipleOf8 w, discardTrailing (roundUpToMultipleOf8 w) obs)) ∧
      (¬acceptsStride w obs → ¬acceptsStride (roundUpToMultipleOf8 w) obs →
        resolveRowWidthLoop obs [w, roundUpToMultipleOf8 w] = Option.none)) ∧
    (XPTParser.parse fileBlankRemainder Option.none).map (fun d => d.rows) =
      Except.ok [XPTRow.mk ["ABC"], XPTRow.mk ["DEF"]] ∧
    XPTParser.parse fileBadRemainder Option.none =
      Except.error "Unable to determine observation width" := by
  refine ⟨fun w obs hw => ?_, by decide, by decide⟩
  have hloop : ∀ (c : Nat) (rest : List Nat), resolveRowWidthLoop obs (c :: rest) =
      (if obs.length % c = 0 then some (c, obs)
       else if (obs.drop (obs.length - obs.length % c)).all (fun b => b == 0x00 || b == 0x20) then
         some (c, obs.take (obs.length - obs.length % c))
       else resolveRowWidthLoop obs rest) := fun c rest => rfl
  refine ⟨?_, ?_, ?_⟩
  · intro hacc
    rw [hloop, discardTrailing]
    by_cases hrem : obs.length % w = 0
    · rw [if_pos hrem, if_pos hrem]
    · have hfill : ∀ b ∈ obs.drop (obs.length - obs.length % w), b = 0x00 ∨ b = 0x20 :=
        hacc.resolve_left hrem
      rw [if_neg hrem, if_pos ((all_filler_iff _).mpr hfill), if_neg hrem]
  · intro hnacc hacc8
    have hrem : ¬(obs.length % w = 0) := fun hr => hnacc (Or.inl hr)
    have hnfill : ¬((obs.drop (obs.length - obs.length % w)).all
        (fun b => b == 0x00 || b == 0x20) = true) := fun hf =>
      hnacc (Or.inr ((all_filler_iff _).mp hf))
    rw [hloop, if_neg hrem, if_neg hnfill, hloop, discardTrailing]
    by_cases hrem8 : obs.length % roundUpToMultipleOf8 w = 0
    · rw [if_pos hrem8, if_pos hrem8]
    · have hfill8 : ∀ b ∈ obs.drop (obs.length - obs.length % roundUpToMultipleOf8 w),
          b = 0x00 ∨ b = 0x20 := hacc8.resolve_left hrem8
      rw [if_neg hrem8, if_pos ((all_filler_iff _).mpr hfill8), if_neg hrem8]
  · intro hnacc hnacc8
    have hrem : ¬(obs.length % w = 0) := fun hr => hnacc (Or.inl hr)
    have hnfill : ¬((obs.drop (obs.length - obs.length % w)).all
        (fun b => b == 0x00 || b == 0x20) = true) := fun hf =>
      hnacc (Or.inr ((all_filler_iff _).mp hf))
    have hrem8 : ¬(obs.length % roundUpToMultipleOf8 w = 0) := fun hr => hnacc8 (Or.inl hr)
    have hnfill8 : ¬((obs.drop (obs.length - obs.length % roundUpToMultipleOf8 w)).all
        (fun b => b == 0x00 || b == 0x20) = true) := fun hf =>
      hnacc8 (Or.inr ((all_filler_iff _).mp hf))
    rw [hloop, if_neg hrem, if_neg hnfill, hloop, if_neg hrem8, if_neg hnfill8]
    rfl

/-- Witness for C6: width 3, seven observation bytes with a blank
seventh byte — the first candidate is accepted with the trailing blank
discarded. -/
theorem row_width_resolution_spec_witness :
    resolveRowWidthLoop (strBytes "ABCDEF ") [3, roundUpToMultipleOf8 3] =
      some (3, discardTrailing 3 (strBytes "ABCDEF ")) :=
  (row_width_resolution_spec.1 3 (strBytes "ABCDEF ") (by decide)).1 (by decide)

/-- `parse_cell` dispatches only on the variable's type. -/
lemma parseCell_congr (d : List Nat) (v v' : XPTVariable)
    (h : v.var_type = v'.var_type) : parseCell d v = parseCell d v' := by
  unfold parseCell
  rw [h]

set_option maxRecDepth 8000 in
/-- C7 counterexample: a file declaring variable `A` first with position
field 2 and variable `B` second with position field 0 is decoded with
output order `[A, B]` — positions `[2, 0]`, not ascending — because the
parser substitutes `declaration index + 1` for the zero position before
comparing, whereas the claim (ascending declared position order, with
fallback only for ties or all-zero positions) would put `B` first. -/
theorem parse_output_order_not_position_sorted :
    (XPTParser.parse fileMixedPositions Option.none).map
        (fun d => d.variables.map fun v => (v.name, v.position)) =
      Except.ok [("A", 2), ("B", 0)] ∧
    ¬ List.Sorted (· ≤ ·) [2, 0] :=
  ⟨by decide, by decide⟩

/-- C7 (amended): variables are ordered by ascending *effective* key —
the declared position when nonzero, else declaration index + 1 — with
ties broken by declaration order (so declaration order results when
positions tie or are all zero); and row bytes are extracted at
sequential cumulative offsets from the variables' lengths in that output
order: the extraction depends only on each variable's type and length,
never on its position field. -/
theorem variable_order_and_extraction :
    (∀ records : List NameStringRecord,
      (orderRecords records).Pairwise recordLe ∧ (orderRecords records).Perm records.enum) ∧
    (∀ (vars vars' : List XPTVariable) (rowData : List Nat) (offset : Nat),
      vars.map (fun v => (v.var_type, v.length)) = vars'.map (fun v => (v.var_type, v.length)) →
      parseRowValues vars rowData offset = parseRowValues vars' rowData offset) := by
  constructor
  · intro records
    exact ⟨List.sorted_insertionSort recordLe records.enum,
      List.perm_insertionSort recordLe records.enum⟩
  · intro vars
    induction vars with
    | nil =>
      intro vars' rowData offset h
      have : vars' = [] := by
        cases vars' with
        | nil => rfl
        | cons v' t' => simp at h
      subst this
      rfl
    | cons v t ih =>
      intro vars' rowData offset h
      cases vars' with
      | nil => simp at h
      | cons v' t' =>
        simp only [List.map_cons, List.cons.injEq, Prod.mk.injEq] at h
        obtain ⟨⟨htype, hlen⟩, hrest⟩ := h
        unfold parseRowValues
        rw [hlen, parseCell_congr _ _ _ htype, ih t' rowData (offset + v'.length) hrest]

/-- Witness for C7 (amended): two single-variable tables that differ
only in the position field extract identical row values. -/
theorem variable_order_and_extraction_witness :
    parseRowValues
        [{ name := "P", label := "", var_type := VariableType.Character,
           length := 1, position := 7 }]
        (strBytes "Q") 0 =
      parseRowValues
        [{ name := "R", label := "", var_type := VariableType.Character,
           length := 1, position := 0 }]
        (strBytes "Q") 0 :=
  variable_order_and_extraction.2 _ _ _ _ (by decide)

/-- Two successive decodes of the same byte buffer. -/
def decodeTwice (data : List Nat) :
    Except String (List Dataset) × Except String (List Dataset) :=
  (read_xpt_v5_from_bytes data, read_xpt_v5_from_bytes data)

/-- C8: the decode entry point is a pure function of its input byte
buffer — the whole decoder embeds as a state-free function, so decoding
the same buffer twice yields structurally equal results. -/
theorem read_xpt_v5_from_bytes_deterministic :
    ∀ data : List Nat, (decodeTwice data).1 = (decodeTwice data).2 :=
  fun _ => rfl

/-- C9: every row of a successfully parsed dataset carries exactly one
cell per variable (rows that would come up short are dropped by the
`row_values.len() == variables.len()` guard, never emitted partially). -/
theorem parse_rows_have_one_cell_per_variable (data : List Nat) (s : Option String)
    (d : XPTDataset) (h : XPTParser.parse data s = Except.ok d) :
    ∀ row ∈ d.rows, row.values.length = d.variables.length := by
  simp only [XPTParser.parse] at h
  repeat' split at h
  all_goals try exact Except.noConfusion h
  injection h with hd
  subst hd
  intro row hrow
  exact mem_parseRowsGo _ _ _ _ _ _ row hrow

set_option maxRecDepth 8000 in
/-- Witness for C9 on the concrete single-variable file: its first row
has one cell, and the dataset has one variable. -/
theorem parse_rows_have_one_cell_per_variable_witness :
    (XPTRow.mk ["AB"]).values.length = datasetSingleVar.variables.length :=
  parse_rows_have_one_cell_per_variable fileSingleVar Option.none datasetSingleVar
    (by decide) (XPTRow.mk ["AB"]) (by decide)

/-- C10: at the public interface a cell is `None` exactly when the
parser produced the empty string for it; consequently an all-blank
character field (trimmed to `""`) and a numeric missing value (byte 0 =
`0x2E`, rendered `""`) both surface as `None`, indistinguishable from
one another. -/
theorem cell_none_iff_empty_string :
    (∀ v : String, cellToOption v = Option.none ↔ v = "") ∧
    asciiStringTrimmed (blankBytes 4) = "" ∧
    parseNumericValue (0x2E :: List.replicate 7 0) = "" ∧
    cellToOption (parseCell (blankBytes 4)
      { name := "C", label := "", var_type := VariableType.Character,
        length := 4, position := 1 }) = Option.none ∧
    cellToOption (parseCell (0x2E :: List.replicate 7 0)
      { name := "N", label := "", var_type := VariableType.Numeric,
        length := 8, position := 2 }) = Option.none := by
  refine ⟨fun v => ?_, by decide, by decide, by decide, by decide⟩
  unfold cellToOption
  by_cases hv : v.isEmpty
  · rw [if_pos hv]
    simp [(String.isEmpty_iff v).mp hv]
  · rw [if_neg hv]
    constructor
    · intro hnone; exact Option.noConfusion hnone
    · intro hempty; exact absurd ((String.isEmpty_iff v).mpr hempty) hv

end XptRs
